import Mathlib

/-!
Shallow embedding of the RSA (Respiratory Sinus Arrhythmia) pipeline of
`src/neurokit2/hrv/hrv_rsa.py` and verification of its specification.

Machine floats are modelled by rationals; the float value NaN is modelled
by `none` in `Option ℚ`.  Python exceptions are modelled by `Except`.
External "Signal Utilities" (resampling, filtering, the short-time
spectrogram `signal_timefrequency`, and the scipy dense linear algebra)
are external collaborators of this repository and appear as parameters.
-/

namespace NeuroKit

/-- Consecutive pairs of a list: `pairs [a, b, c] = [(a, b), (b, c)]`.
This is the indexing pattern `l[idx], l[idx+1]` / `np.diff` uses. -/
def pairs {α : Type} (l : List α) : List (α × α) := l.zip l.tail

/-- Maximum of a rational list (`np.max`); `0` on the empty list, which the
source never queries. -/
def listMax : List ℚ → ℚ
  | [] => 0
  | x :: xs => xs.foldl max x

/-- Minimum of a rational list (`np.min`); `0` on the empty list. -/
def listMin : List ℚ → ℚ
  | [] => 0
  | x :: xs => xs.foldl min x

/-! ### Peak-to-Trough estimator, `_hrv_rsa_p2t` (source lines 206-236) -/

/-- Source lines 210-214: for each `idx`, the R-peaks `r` with
`rsp_onsets[idx] <= r < rsp_onsets[idx+1]`
(`rpeaks[np.logical_and(rpeaks >= cycle_init, rpeaks < cycle_end)]`). -/
def cyclesRRI (rsp_onsets rpeaks : List ℕ) : List (List ℕ) :=
  (pairs rsp_onsets).map (fun p => rpeaks.filter (fun r => decide (p.1 ≤ r ∧ r < p.2)))

/-- Source line 220: `RRis = np.diff(cycle) / sampling_rate`. -/
def RRIs (cycle : List ℕ) (sampling_rate : ℚ) : List ℚ :=
  (pairs cycle).map (fun p => ((p.2 : ℚ) - (p.1 : ℚ)) / sampling_rate)

/-- Source lines 217-222: the per-cycle RSA value; `np.max(RRis) - np.min(RRis)`
when `len(RRis) > 1`, otherwise the initialized `np.nan`. -/
def cycleRSA (cycle : List ℕ) (sampling_rate : ℚ) : Option ℚ :=
  let r := RRIs cycle sampling_rate
  if 1 < r.length then some (listMax r - listMin r) else none

/-- Source lines 217-222: the array `rsa_values`. -/
def rsaValues (rsp_onsets rpeaks : List ℕ) (sampling_rate : ℚ) : List (Option ℚ) :=
  (cyclesRRI rsp_onsets rpeaks).map (fun c => cycleRSA c sampling_rate)

/-- Values that are not NaN, in order (`numpy` skips NaN entries). -/
def definedVals (l : List (Option ℚ)) : List ℚ := l.filterMap id

/-- Embedding of `np.nanmean`: mean over the non-NaN entries; NaN when
there are none. -/
def nanmean (l : List (Option ℚ)) : Option ℚ :=
  let xs := definedVals l
  if xs.length = 0 then none else some (xs.sum / (xs.length : ℚ))

/-- Embedding of the square of `np.nanstd(·, ddof=1)`: the sample variance
over the non-NaN entries; NaN when fewer than two remain (0/0). -/
def nanvar1 (l : List (Option ℚ)) : Option ℚ :=
  let xs := definedVals l
  if xs.length ≤ 1 then none
  else some ((xs.map (fun x => (x - xs.sum / (xs.length : ℚ)) ^ 2)).sum / ((xs.length : ℚ) - 1))

/-- Source line 228: the number of NaN entries of `rsa_values`
(`len(pd.Series(rsa_values).index[pd.Series(rsa_values).isnull()])`). -/
def countNaN (l : List (Option ℚ)) : ℕ := l.countP (fun o => o.isNone)

/-- Summary-mode output of `_hrv_rsa_p2t` (source lines 224-228); the
`Mean_log` / `SD` fields are the log / square root of `mean` / `variance`
and are stated at theorem level since they leave ℚ. -/
structure P2TSummary where
  mean : Option ℚ
  variance : Option ℚ
  noRSA : ℕ

/-- Source lines 224-228 for `continuous=False`. -/
def p2tSummary (rsp_onsets rpeaks : List ℕ) (sampling_rate : ℚ) : P2TSummary :=
  let vals := rsaValues rsp_onsets rpeaks sampling_rate
  ⟨nanmean vals, nanvar1 vals, countNaN vals⟩

/-- Modelled from the spec's words ("mean (ignoring undefined cycles)"):
the sublist of cycles whose RSA value is defined. -/
def specDefined (l : List (Option ℚ)) : List ℚ :=
  (l.filter (fun o => o.isSome)).map (fun o => o.getD 0)

/-- Modelled from the spec's words: plain mean of a value list. -/
def specMean (xs : List ℚ) : Option ℚ :=
  if xs = [] then none else some (xs.sum / (xs.length : ℚ))

/-- Modelled from the spec's words: sample variance (ddof = 1). -/
def specSampleVar (xs : List ℚ) : Option ℚ :=
  if xs.length ≤ 1 then none
  else some ((xs.map (fun x => (x - xs.sum / (xs.length : ℚ)) ^ 2)).sum / ((xs.length : ℚ) - 1))

/-! ### Helper lemmas -/

theorem specDefined_eq_filterMap (l : List (Option ℚ)) : specDefined l = l.filterMap id := by
  induction l with
  | nil => rfl
  | cons hd tl ih =>
    cases hd with
    | none => simpa [specDefined, List.filter_cons] using ih
    | some v => simpa [specDefined, List.filter_cons] using ih

theorem countNaN_cons_none (tl : List (Option ℚ)) : countNaN (none :: tl) = countNaN tl + 1 := by
  simp [countNaN, List.countP_cons]

theorem countNaN_cons_some (v : ℚ) (tl : List (Option ℚ)) :
    countNaN (some v :: tl) = countNaN tl := by
  simp [countNaN, List.countP_cons]

theorem definedVals_cons_none (tl : List (Option ℚ)) : definedVals (none :: tl) = definedVals tl := by
  simp [definedVals]

theorem definedVals_cons_some (v : ℚ) (tl : List (Option ℚ)) :
    definedVals (some v :: tl) = v :: definedVals tl := by
  simp [definedVals]

theorem countNaN_add_defined (l : List (Option ℚ)) :
    countNaN l + (definedVals l).length = l.length := by
  induction l with
  | nil => rfl
  | cons hd tl ih =>
    cases hd with
    | none =>
      rw [countNaN_cons_none, definedVals_cons_none, List.length_cons]
      omega
    | some v =>
      rw [countNaN_cons_some, definedVals_cons_some, List.length_cons, List.length_cons]
      omega

theorem pairs_length {α : Type} (l : List α) : (pairs l).length = l.length - 1 := by
  simp [pairs, List.length_zip]

theorem listMin_le_head : ∀ (xs : List ℚ) (x : ℚ), listMin (x :: xs) ≤ x := by
  intro xs
  induction xs with
  | nil => intro x; simp [listMin]
  | cons y ys ih =>
    intro x
    have h1 := ih (min x y)
    simp only [listMin] at h1 ⊢
    exact le_trans h1 (min_le_left x y)

theorem head_le_listMax : ∀ (xs : List ℚ) (x : ℚ), x ≤ listMax (x :: xs) := by
  intro xs
  induction xs with
  | nil => intro x; simp [listMax]
  | cons y ys ih =>
    intro x
    have h1 := ih (max x y)
    simp only [listMax] at h1 ⊢
    exact le_trans (le_max_left x y) h1

theorem listMin_le_listMax (l : List ℚ) : listMin l ≤ listMax l := by
  cases l with
  | nil => simp [listMin, listMax]
  | cons x xs => exact le_trans (listMin_le_head xs x) (head_le_listMax xs x)

theorem nanmean_eq_specMean (l : List (Option ℚ)) : nanmean l = specMean (specDefined l) := by
  rw [specDefined_eq_filterMap]
  unfold nanmean specMean definedVals
  rcases eq_or_ne (l.filterMap id) [] with h | h
  · simp [h]
  · simp [h, List.length_eq_zero]

theorem nanvar1_eq_specSampleVar (l : List (Option ℚ)) :
    nanvar1 l = specSampleVar (specDefined l) := by
  rw [specDefined_eq_filterMap]
  rfl

/-! ### Theorems for the claims about the P2T summary -/

/-- C7: in summary mode the P2T estimator returns the mean of the per-cycle
values over defined (non-NaN) cycles only, the natural log of that mean, the
sample standard deviation (ddof = 1) over defined cycles only, and the count
of undefined cycles; undefined cycles enter only through their exclusion. -/
theorem p2t_summary_ignores_undefined (rsp_onsets rpeaks : List ℕ) (sampling_rate : ℚ) :
    (p2tSummary rsp_onsets rpeaks sampling_rate).mean
        = specMean (specDefined (rsaValues rsp_onsets rpeaks sampling_rate)) ∧
    (p2tSummary rsp_onsets rpeaks sampling_rate).variance
        = specSampleVar (specDefined (rsaValues rsp_onsets rpeaks sampling_rate)) ∧
    ((p2tSummary rsp_onsets rpeaks sampling_rate).mean).map (fun q => Real.log (q : ℝ))
        = (specMean (specDefined (rsaValues rsp_onsets rpeaks sampling_rate))).map
            (fun q => Real.log (q : ℝ)) ∧
    ((p2tSummary rsp_onsets rpeaks sampling_rate).variance).map (fun q => Real.sqrt (q : ℝ))
        = (specSampleVar (specDefined (rsaValues rsp_onsets rpeaks sampling_rate))).map
            (fun q => Real.sqrt (q : ℝ)) ∧
    (p2tSummary rsp_onsets rpeaks sampling_rate).noRSA
        = (rsaValues rsp_onsets rpeaks sampling_rate).length
            - (specDefined (rsaValues rsp_onsets rpeaks sampling_rate)).length := by
  refine ⟨nanmean_eq_specMean _, nanvar1_eq_specSampleVar _, ?_, ?_, ?_⟩
  · rw [show (p2tSummary rsp_onsets rpeaks sampling_rate).mean
        = nanmean (rsaValues rsp_onsets rpeaks sampling_rate) from rfl, nanmean_eq_specMean]
  · rw [show (p2tSummary rsp_onsets rpeaks sampling_rate).variance
        = nanvar1 (rsaValues rsp_onsets rpeaks sampling_rate) from rfl, nanvar1_eq_specSampleVar]
  · rw [show (p2tSummary rsp_onsets rpeaks sampling_rate).noRSA
        = countNaN (rsaValues rsp_onsets rpeaks sampling_rate) from rfl,
      specDefined_eq_filterMap]
    have h := countNaN_add_defined (rsaValues rsp_onsets rpeaks sampling_rate)
    unfold definedVals at h
    omega

/-- C10: every breath cycle is counted exactly once: `RSA_P2T_NoRSA` plus the
number of cycles with a defined RSA value equals the total number of breath
cycles, which is the number of inspiration onsets minus one (zero when there
are fewer than two onsets). -/
theorem p2t_cycle_accounting (rsp_onsets rpeaks : List ℕ) (sampling_rate : ℚ) :
    (p2tSummary rsp_onsets rpeaks sampling_rate).noRSA
        + (specDefined (rsaValues rsp_onsets rpeaks sampling_rate)).length
        = rsp_onsets.length - 1 ∧
    (rsaValues rsp_onsets rpeaks sampling_rate).length = rsp_onsets.length - 1 := by
  have hlen : (rsaValues rsp_onsets rpeaks sampling_rate).length = rsp_onsets.length - 1 := by
    simp [rsaValues, cyclesRRI, pairs_length]
  refine ⟨?_, hlen⟩
  rw [show (p2tSummary rsp_onsets rpeaks sampling_rate).noRSA
      = countNaN (rsaValues rsp_onsets rpeaks sampling_rate) from rfl,
    specDefined_eq_filterMap]
  have h := countNaN_add_defined (rsaValues rsp_onsets rpeaks sampling_rate)
  unfold definedVals at h
  omega

theorem rsaValues_getD (rsp_onsets rpeaks : List ℕ) (sampling_rate : ℚ) (idx : ℕ)
    (h : idx + 1 < rsp_onsets.length) :
    (rsaValues rsp_onsets rpeaks sampling_rate).getD idx none
      = cycleRSA (rpeaks.filter (fun r =>
          decide (rsp_onsets.getD idx 0 ≤ r ∧ r < rsp_onsets.getD (idx + 1) 0))) sampling_rate := by
  have hp : idx < (pairs rsp_onsets).length := by rw [pairs_length]; omega
  have h2 : idx < (cyclesRRI rsp_onsets rpeaks).length := by simpa [cyclesRRI] using hp
  have h3 : idx < (rsaValues rsp_onsets rpeaks sampling_rate).length := by
    simpa [rsaValues] using h2
  have h0 : idx < rsp_onsets.length := by omega
  have ht : idx < rsp_onsets.tail.length := by
    simp only [List.length_tail]; omega
  rw [List.getD_eq_getElem _ _ h3]
  simp only [rsaValues, cyclesRRI, List.getElem_map, pairs, List.getElem_zip, List.getElem_tail]
  rw [List.getD_eq_getElem _ _ h0, List.getD_eq_getElem _ _ h]

/-- C4: per cycle, the P2T estimator collects the R-peaks in
`[onset, next_onset)`, forms successive inter-beat intervals in seconds, is
undefined (NaN) when there are fewer than 2 intervals, and otherwise equals
`max(interval) - min(interval)`, which is nonnegative. -/
theorem p2t_cycle_value (rsp_onsets rpeaks : List ℕ) (sampling_rate : ℚ) (idx : ℕ)
    (h : idx + 1 < rsp_onsets.length) :
    ((rsaValues rsp_onsets rpeaks sampling_rate).getD idx none = none
      ↔ (RRIs (rpeaks.filter (fun r =>
          decide (rsp_onsets.getD idx 0 ≤ r ∧ r < rsp_onsets.getD (idx + 1) 0)))
          sampling_rate).length < 2) ∧
    (∀ v : ℚ, (rsaValues rsp_onsets rpeaks sampling_rate).getD idx none = some v →
      v = listMax (RRIs (rpeaks.filter (fun r =>
            decide (rsp_onsets.getD idx 0 ≤ r ∧ r < rsp_onsets.getD (idx + 1) 0)))
            sampling_rate)
          - listMin (RRIs (rpeaks.filter (fun r =>
            decide (rsp_onsets.getD idx 0 ≤ r ∧ r < rsp_onsets.getD (idx + 1) 0)))
            sampling_rate) ∧ 0 ≤ v) := by
  rw [rsaValues_getD _ _ _ _ h]
  simp only [cycleRSA]
  by_cases hlen : 1 < (RRIs (rpeaks.filter (fun r =>
      decide (rsp_onsets.getD idx 0 ≤ r ∧ r < rsp_onsets.getD (idx + 1) 0)))
      sampling_rate).length
  · rw [if_pos hlen]
    refine ⟨⟨fun hcontr => by simp at hcontr, fun hlt => absurd hlen (by omega)⟩, ?_⟩
    intro v hv
    have hv2 : listMax (RRIs (rpeaks.filter (fun r =>
        decide (rsp_onsets.getD idx 0 ≤ r ∧ r < rsp_onsets.getD (idx + 1) 0)))
        sampling_rate)
        - listMin (RRIs (rpeaks.filter (fun r =>
        decide (rsp_onsets.getD idx 0 ≤ r ∧ r < rsp_onsets.getD (idx + 1) 0)))
        sampling_rate) = v := by
      exact Option.some_injective _ hv
    exact ⟨hv2.symm, hv2 ▸ sub_nonneg.mpr (listMin_le_listMax _)⟩
  · rw [if_neg hlen]
    exact ⟨⟨fun _ => by omega, fun _ => rfl⟩, fun v hv => by simp at hv⟩

/-- Witness for C4 at onsets [0, 100], R-peaks [10, 30, 60], rate 10 Hz: the
single cycle has intervals [2, 3] s and RSA value 1 = 3 - 2. -/
theorem p2t_cycle_value_witness :
    (0 + 1 < ([0, 100] : List ℕ).length) ∧
    ((1 : ℚ) = listMax (RRIs (([10, 30, 60] : List ℕ).filter (fun r =>
          decide (([0, 100] : List ℕ).getD 0 0 ≤ r ∧ r < ([0, 100] : List ℕ).getD 1 0))) 10)
        - listMin (RRIs (([10, 30, 60] : List ℕ).filter (fun r =>
          decide (([0, 100] : List ℕ).getD 0 0 ≤ r ∧ r < ([0, 100] : List ℕ).getD 1 0))) 10)
      ∧ 0 ≤ (1 : ℚ)) :=
  ⟨by decide, (p2t_cycle_value [0, 100] [10, 30, 60] 10 0 (by decide)).2 1 (by
    show cycleRSA [10, 30, 60] 10 = some 1
    have hr : RRIs [10, 30, 60] 10 = [2, 3] := by
      norm_num [RRIs, pairs]
    simp only [cycleRSA, hr]
    norm_num [listMax, listMin, max_def, min_def])⟩

/-! ### Cycle Extractor, `_hrv_rsa_cycles` (source lines 465-481) -/

/-- One sample of the phase-labeled respiration signal: the columns
`RSP_Phase` and `RSP_Phase_Completion`. -/
structure RespSample where
  phase : ℚ
  completion : ℚ

/-- Source lines 467-469: `np.intersect1d(np.where(RSP_Phase == 1)[0],
np.where(RSP_Phase_Completion == 0)[0])`, i.e. the ascending sample indices
where both conditions hold. -/
def inspirationOnsets (signals : List RespSample) : List ℕ :=
  (List.range signals.length).filter (fun i =>
    decide ((signals.getD i ⟨0, 0⟩).phase = 1 ∧ (signals.getD i ⟨0, 0⟩).completion = 0))

/-- Source lines 471-473: the analogous indices with `RSP_Phase == 0`. -/
def expirationOnsets (signals : List RespSample) : List ℕ :=
  (List.range signals.length).filter (fun i =>
    decide ((signals.getD i ⟨0, 0⟩).phase = 0 ∧ (signals.getD i ⟨0, 0⟩).completion = 0))

/-- Source line 475: `cycles_length = np.diff(inspiration_onsets)`. -/
def cyclesLength (signals : List RespSample) : List ℤ :=
  (pairs (inspirationOnsets signals)).map (fun p => (p.2 : ℤ) - (p.1 : ℤ))

theorem pairs_lt_of_pairwise : ∀ {l : List ℕ}, l.Pairwise (· < ·) →
    ∀ p ∈ pairs l, p.1 < p.2 := by
  intro l
  induction l with
  | nil => intro _ p hp; simp [pairs] at hp
  | cons a t ih =>
    intro hpw p hp
    cases t with
    | nil => simp [pairs] at hp
    | cons b t2 =>
      rw [pairs, List.tail_cons, List.zip_cons_cons] at hp
      rcases List.mem_cons.mp hp with rfl | hmem
      · exact (List.pairwise_cons.mp hpw).1 b (List.mem_cons_self b t2)
      · exact ih (List.pairwise_cons.mp hpw).2 p hmem

/-- C6: the Cycle Extractor returns as inspiration (resp. expiration) onsets
exactly the indices with Phase 1 (resp. 0) and PhaseCompletion 0, and as
cycle lengths the consecutive differences of the inspiration onsets, a list
one shorter than the onset list with all entries positive. -/
theorem cycle_extractor_spec (signals : List RespSample) :
    (∀ i : ℕ, i ∈ inspirationOnsets signals ↔
      i < signals.length ∧ (signals.getD i ⟨0, 0⟩).phase = 1
        ∧ (signals.getD i ⟨0, 0⟩).completion = 0) ∧
    (∀ i : ℕ, i ∈ expirationOnsets signals ↔
      i < signals.length ∧ (signals.getD i ⟨0, 0⟩).phase = 0
        ∧ (signals.getD i ⟨0, 0⟩).completion = 0) ∧
    (cyclesLength signals).length = (inspirationOnsets signals).length - 1 ∧
    (∀ d : ℤ, d ∈ cyclesLength signals → 0 < d) := by
  refine ⟨?_, ?_, ?_, ?_⟩
  · intro i
    simp [inspirationOnsets, List.mem_filter, List.mem_range, and_assoc]
  · intro i
    simp [expirationOnsets, List.mem_filter, List.mem_range, and_assoc]
  · simp [cyclesLength, pairs_length]
  · intro d hd
    simp only [cyclesLength, List.mem_map] at hd
    obtain ⟨p, hp, rfl⟩ := hd
    have hpw : (inspirationOnsets signals).Pairwise (· < ·) :=
      (List.pairwise_lt_range _).filter _
    have hlt := pairs_lt_of_pairwise hpw p hp
    omega

/-- Witness for C6 at a concrete three-sample signal with inspiration onsets
at indices 0 and 2. -/
theorem cycle_extractor_spec_witness :
    (2 : ℤ) ∈ cyclesLength [⟨1, 0⟩, ⟨0, 0⟩, ⟨1, 0⟩] ∧ (0 : ℤ) < 2 :=
  ⟨by decide, (cycle_extractor_spec [⟨1, 0⟩, ⟨0, 0⟩, ⟨1, 0⟩]).2.2.2 2 (by decide)⟩

/-! ### Respiration peak / onset count check, `hrv_rsa` (source lines 150-156) -/

/-- Source lines 153-154: after restricting the respiration peaks to those
after the first inspiration onset, drop the last peak when the counts are
equal (`if len(rsp_peaks) - len(rsp_onsets) == 0: rsp_peaks = rsp_peaks[:-1]`). -/
def rspPeaksAdjust (rsp_peaks rsp_onsets : List ℕ) : List ℕ :=
  if rsp_peaks.length = rsp_onsets.length then rsp_peaks.dropLast else rsp_peaks

/-- Source lines 155-156: the warning fires unless the adjusted difference of
the counts is -1 (`if len(rsp_peaks) - len(rsp_onsets) != -1: warn(...)`). -/
def rspCycleWarn (rsp_peaks rsp_onsets : List ℕ) : Bool :=
  decide ((((rspPeaksAdjust rsp_peaks rsp_onsets).length : ℤ)
    - (rsp_onsets.length : ℤ)) ≠ -1)

/-- C5 counterexample: with 3 peaks and 2 onsets the counts differ by exactly
one, yet the warning fires — the claim says no warning in that case. -/
theorem rspCycleWarn_counterexample :
    rspCycleWarn [5, 9, 13] [1, 2] = true ∧
    (([5, 9, 13] : List ℕ).length : ℤ) - (([1, 2] : List ℕ).length : ℤ) = 1 := by
  decide

/-- C5 amended: given at least one inspiration onset, the warning is absent
exactly when the peak count equals the onset count or is exactly one less
than it; any other difference — including one more peak than onsets — warns. -/
theorem rspCycleWarn_iff (rsp_peaks rsp_onsets : List ℕ)
    (h : 1 ≤ rsp_onsets.length) :
    rspCycleWarn rsp_peaks rsp_onsets = false ↔
      rsp_peaks.length = rsp_onsets.length ∨ rsp_peaks.length + 1 = rsp_onsets.length := by
  unfold rspCycleWarn rspPeaksAdjust
  by_cases heq : rsp_peaks.length = rsp_onsets.length
  · rw [if_pos heq]
    simp only [List.length_dropLast, decide_eq_false_iff_not, ne_eq, not_not]
    constructor
    · intro _; exact Or.inl heq
    · intro _; omega
  · rw [if_neg heq]
    simp only [decide_eq_false_iff_not, ne_eq, not_not]
    constructor
    · intro hadj; right; omega
    · rintro (hc | hc)
      · exact absurd hc heq
      · omega

/-- Witness for C5's amended statement with one peak and one onset. -/
theorem rspCycleWarn_iff_witness :
    1 ≤ ([3] : List ℕ).length ∧ rspCycleWarn [7] [3] = false :=
  ⟨by decide, (rspCycleWarn_iff [7] [3] (by decide)).mpr (Or.inl (by decide))⟩

/-! ### Porges-Bohrer aggregation, `_hrv_rsa_pb` (source lines 262-269) -/

/-- Source lines 264-269: per-epoch log-variances (NaN modelled `none`); rows
containing NaN are dropped, then `pd.concat(variance).mean()` — and
`pd.concat` of an empty list raises
`ValueError: No objects to concatenate` (pandas semantics). -/
def pbAggregate (variance : List (Option ℚ)) : Except String ℚ :=
  let kept := variance.filterMap id
  if kept.length = 0 then Except.error "ValueError: No objects to concatenate"
  else Except.ok (kept.sum / (kept.length : ℚ))

/-- C9 evaluation: when every epoch's log-variance is undefined, the
Porges-Bohrer aggregation raises a ValueError instead of returning NaN. -/
theorem pb_all_epochs_discarded_raises :
    pbAggregate [none, none] = Except.error "ValueError: No objects to concatenate" := by
  rfl

/-! ### Gates estimator spectral loop, `_hrv_rsa_gates` (source lines 343-379) -/

/-- Source lines 364-378, per time-frequency bin: `psd i` abstracts the power
value the external `signal_timefrequency` spectrogram yields for window
column `multipeak[:, i]`, and `weight i` the generator weight.  The loop is
`for i in range(4): rsa = psd * weight[i] + rsa` — the bound 4 is fixed; when
`window_number < 4`, accessing `multipeak[:, i]` / `weight[i]` for
`i >= window_number` raises an IndexError. -/
def gatesLoopSum (window_number : ℕ) (psd weight : ℕ → ℚ) : Except String ℚ :=
  if window_number < 4 then Except.error "IndexError: index out of bounds"
  else Except.ok (((List.range 4).map (fun i => psd i * weight i)).sum)

/-- Modelled from the spec: the weighted sum over all `window_number` windows
("for each of the K windows ... weighted-sum the resulting power spectra
across windows using the per-window weights"). -/
def gatesSpecSum (window_number : ℕ) (psd weight : ℕ → ℚ) : ℚ :=
  ((List.range window_number).map (fun i => psd i * weight i)).sum

/-- C1 evaluation: the Gates loop uses the fixed subset range(4) of windows:
with window_number = 2 it raises an IndexError, and with window_number = 8 a
spectrum whose power sits in window 4 is ignored, so the code's sum differs
from the all-8-window weighted sum. -/
theorem gates_fixed_window_subset :
    gatesLoopSum 2 (fun _ => 1) (fun _ => 1)
        = Except.error "IndexError: index out of bounds" ∧
    gatesLoopSum 8 (fun i => if i = 4 then 1 else 0) (fun _ => 1)
        ≠ Except.ok (gatesSpecSum 8 (fun i => if i = 4 then 1 else 0) (fun _ => 1)) := by
  constructor
  · rfl
  · intro hcontr
    have h0 : gatesLoopSum 8 (fun i => if i = 4 then 1 else 0) (fun _ => 1)
        = Except.ok 0 := by norm_num [gatesLoopSum, List.range_succ]
    have h1 : gatesSpecSum 8 (fun i => if i = 4 then 1 else 0) (fun _ => 1) = 1 := by
      norm_num [gatesSpecSum, List.range_succ]
    rw [h0, h1] at hcontr
    exact absurd (Except.ok.inj hcontr) (by norm_num)

/-! ### Orchestrator merge, `hrv_rsa` (source lines 167-200) -/

/-- Keys of the dict `_hrv_rsa_p2t` returns in summary mode (lines 224-228). -/
def p2tSummaryKeys : List String :=
  ["RSA_P2T_Mean", "RSA_P2T_Mean_log", "RSA_P2T_SD", "RSA_P2T_NoRSA"]

/-- Keys of the dict `_hrv_rsa_pb` returns in summary mode (line 269). -/
def pbSummaryKeys : List String := ["RSA_PorgesBohrer"]

/-- Keys of the dict `_hrv_rsa_gates` returns in summary mode (lines 382-385). -/
def gatesSummaryKeys : List String := ["RSA_Gates_Mean", "RSA_Gates_Mean_log", "RSA_Gates_SD"]

/-- Key-level semantics of Python `dict.update` with a dict argument:
existing keys keep their position, new keys are appended in order. -/
def dictUpdateKeys (d e : List String) : List String :=
  d ++ e.filter (fun k => decide (k ∉ d))

/-- Summary-mode output of `_hrv_rsa_gates` (lines 343-385) at key level: the
spectral loop modelled by `gatesLoopSum` runs first; its IndexError (raised
when `window_number < 4` by the `range(4)` loop) propagates, otherwise the
three-key dict is returned. -/
def gatesSummaryDict (window_number : ℕ) (psd weight : ℕ → ℚ) :
    Except String (List String) :=
  match gatesLoopSum window_number psd weight with
  | Except.error e => Except.error e
  | Except.ok _ => Except.ok gatesSummaryKeys

/-- Summary-mode output of `_hrv_rsa_pb` (lines 239-269) at key level: the
epoch aggregation modelled by `pbAggregate` runs; its ValueError (raised when
every epoch is discarded) propagates, otherwise the one-key dict is
returned. -/
def pbSummaryDict (pbVariance : List (Option ℚ)) : Except String (List String) :=
  match pbAggregate pbVariance with
  | Except.error e => Except.error e
  | Except.ok _ => Except.ok pbSummaryKeys

/-- Source lines 158-196 in summary mode, with the source's evaluation order:
`rsa_p2t` (always a dict), then `rsa_pb` (may raise the ValueError of
`pbAggregate`), then the Gates branch — when `input_duration >= window` the
Gates dict (may raise the IndexError of `gatesLoopSum`), otherwise a warning
and `rsa_gates = np.nan`, a float scalar — and finally `rsa = dict()` updated
with `rsa_p2t`, `rsa_pb`, `rsa_gates` in order, where `dict.update` of the
float `np.nan` raises `TypeError: float object is not iterable`.  Parameters
beyond duration and window: `window_number` (the `None` default is 8 before
the call), the per-epoch PB log-variances, and the external spectrogram and
generator weights.  Returns the final key list or the raised error, together
with the emitted warnings. -/
def hrvRsaSummaryKeys (input_duration window : ℚ) (window_number : ℕ)
    (pbVariance : List (Option ℚ)) (psd weight : ℕ → ℚ) :
    Except String (List String) × List String :=
  match pbSummaryDict pbVariance with
  | Except.error e => (Except.error e, [])
  | Except.ok pb =>
    if window ≤ input_duration then
      match gatesSummaryDict window_number psd weight with
      | Except.error e => (Except.error e, [])
      | Except.ok g =>
          (Except.ok (dictUpdateKeys (dictUpdateKeys p2tSummaryKeys pb) g), [])
    else
      (Except.error "TypeError: float object is not iterable",
        ["The duration of recording is shorter than the duration of the window. Returning RSA by Gates method as Nan."])

/-- Source lines 187-190 in continuous mode: the Gates column is
`np.full(len(rsa_p2t), np.nan)` when the recording is shorter than the
window, otherwise the Gates continuous series. -/
def gatesBranchContinuous (input_duration window : ℚ) (gatesCol : List (Option ℚ))
    (p2tLen : ℕ) : List (Option ℚ) :=
  if window ≤ input_duration then gatesCol else List.replicate p2tLen none

/-- C2 evaluation at a 10 s recording with the default 32 s window (default
window_number 8, one surviving PB epoch): the warning is emitted and the
continuous mode fills the Gates column with NaN, but summary mode raises a
TypeError from `rsa.update(np.nan)` instead of returning the dict with NaN
Gates entries. -/
theorem short_recording_summary_raises :
    (hrvRsaSummaryKeys 10 32 8 [some 1] (fun _ => 1) (fun _ => 1)).1
        = Except.error "TypeError: float object is not iterable" ∧
    (hrvRsaSummaryKeys 10 32 8 [some 1] (fun _ => 1) (fun _ => 1)).2 ≠ [] ∧
    gatesBranchContinuous 10 32 [some 1, some 2] 5 = List.replicate 5 none := by
  refine ⟨?_, ?_, ?_⟩
  · rfl
  · intro hcontr
    have hlen : ((hrvRsaSummaryKeys 10 32 8 [some 1] (fun _ => 1) (fun _ => 1)).2).length
        = 1 := by rfl
    rw [hcontr] at hlen
    simp at hlen
  · rfl

/-- C3 evaluation: on a 64 s recording with the documented-valid
window_number 2 the summary call propagates the Gates IndexError and returns
no mapping; with every PB epoch discarded it propagates the ValueError; only
when every estimator returns (window_number 8, a surviving epoch) is the
result a mapping, and then its key list is exactly the eight documented
keys. -/
theorem summary_key_set_paths :
    (hrvRsaSummaryKeys 64 32 2 [some 1] (fun _ => 1) (fun _ => 1)).1
        = Except.error "IndexError: index out of bounds" ∧
    (hrvRsaSummaryKeys 64 32 8 [none] (fun _ => 1) (fun _ => 1)).1
        = Except.error "ValueError: No objects to concatenate" ∧
    (hrvRsaSummaryKeys 64 32 8 [some 1] (fun _ => 1) (fun _ => 1)).1
        = Except.ok
          ["RSA_P2T_Mean", "RSA_P2T_Mean_log", "RSA_P2T_SD", "RSA_P2T_NoRSA",
           "RSA_PorgesBohrer", "RSA_Gates_Mean", "RSA_Gates_Mean_log", "RSA_Gates_SD"] :=
  ⟨rfl, rfl, rfl⟩

/-! ### Multipeak Window Generator, `_get_multipeak_window` (source lines 406-459)

The Toeplitz construction, Cholesky factorization, Schur decomposition and
`np.argsort` run in scipy/numpy, the dense linear-algebra backend the spec
treats as library-grade external capability; its outputs appear below as the
parameters `F` (back-transformed eigenvector matrix), `RD` (pseudo-peak
eigenvalue diagonal) and `h` (argsort permutation of `RD`).  The final
normalization, reversal slice and weight derivation (lines 449-457) are
embedded exactly. -/

/-- Sum of squares of a window column: the square of its L2 norm
(`F[:, h[i]].conj().transpose().dot(F[:, h[i]])` for a real vector). -/
noncomputable def normSq (v : Fin 128 → ℝ) : ℝ := ∑ i, v i ^ 2

/-- Reversal-slice index: `RDN = RDN[len(RD)-1:0:-1]` / `FN = FN[:, len(RD)-1:0:-1]`
place sorted position `127 - j` at output position `j`. -/
def revIdx (j : Fin 8) : Fin 128 := ⟨127 - j.val, by omega⟩

/-- Source lines 449-457 for nperseg = 128: output window column `j` (j < 8)
is `F[:, h[127-j]]` divided by its L2 norm
(`FN[:, i] = F[:, h[i]] / np.sqrt(F[:, h[i]].dot(F[:, h[i]]))`). -/
noncomputable def multipeakCol (F : Fin 128 → Fin 128 → ℝ) (h : Fin 128 → Fin 128)
    (j : Fin 8) : Fin 128 → ℝ :=
  fun i => F i (h (revIdx j)) / Real.sqrt (normSq (fun k => F k (h (revIdx j))))

/-- Source lines 453-456: `weight = RDN[:8] / np.sum(RDN[:8])` where after
sorting and reversal `RDN[j] = RD[h[127-j]]`. -/
noncomputable def gatesWeight (RD : Fin 128 → ℝ) (h : Fin 128 → Fin 128) (j : Fin 8) : ℝ :=
  RD (h (revIdx j)) / ∑ i : Fin 8, RD (h (revIdx i))

/-- C8: for segment length N = 128 and window count K = 8, every output
window column has unit L2 norm and the eight weights sum to 1, whenever the
linear-algebra backend returns nondegenerate data (no selected eigenvector
column is zero and the top-8 eigenvalue sum is nonzero). -/
theorem multipeak_unit_norm_weights (F : Fin 128 → Fin 128 → ℝ) (RD : Fin 128 → ℝ)
    (h : Fin 128 → Fin 128) (j : Fin 8)
    (hF : normSq (fun k => F k (h (revIdx j))) ≠ 0)
    (hRD : (∑ i : Fin 8, RD (h (revIdx i))) ≠ 0) :
    normSq (multipeakCol F h j) = 1 ∧
    Real.sqrt (normSq (multipeakCol F h j)) = 1 ∧
    (∑ i : Fin 8, gatesWeight RD h i) = 1 := by
  have hpos : 0 ≤ normSq (fun k => F k (h (revIdx j))) :=
    Finset.sum_nonneg (fun i _ => sq_nonneg _)
  have h1 : normSq (multipeakCol F h j) = 1 := by
    unfold normSq multipeakCol
    simp only [div_pow]
    rw [← Finset.sum_div, Real.sq_sqrt hpos]
    unfold normSq at hF
    exact div_self hF
  refine ⟨h1, by rw [h1, Real.sqrt_one], ?_⟩
  unfold gatesWeight
  rw [← Finset.sum_div]
  exact div_self hRD

/-- Identity-matrix eigenvector input used by the C8 witness. -/
noncomputable def idF : Fin 128 → Fin 128 → ℝ := fun i j => if i = j then 1 else 0

/-- Constant eigenvalue input used by the C8 witness. -/
noncomputable def oneRD : Fin 128 → ℝ := fun _ => 1

theorem normSq_unit_column (c : Fin 128) :
    (∑ k : Fin 128, (if k = c then (1 : ℝ) else 0) ^ 2) = 1 := by
  rw [Finset.sum_eq_single c]
  · simp
  · intro b _ hb; simp [hb]
  · intro hc; exact absurd (Finset.mem_univ c) hc

/-- Witness for C8 with the identity backend output. -/
theorem multipeak_unit_norm_weights_witness :
    (normSq (fun k => idF k (id (revIdx 0))) ≠ 0 ∧
      (∑ i : Fin 8, oneRD (id (revIdx i))) ≠ 0) ∧
    (normSq (multipeakCol idF id 0) = 1 ∧
      Real.sqrt (normSq (multipeakCol idF id 0)) = 1 ∧
      (∑ i : Fin 8, gatesWeight oneRD id i) = 1) := by
  have hF : normSq (fun k => idF k (id (revIdx 0))) ≠ 0 := by
    unfold normSq idF
    simp only [id_eq]
    rw [normSq_unit_column]
    norm_num
  have hRD : (∑ i : Fin 8, oneRD (id (revIdx i))) ≠ 0 := by
    unfold oneRD
    simp only [id_eq, Finset.sum_const, Finset.card_univ, Fintype.card_fin, nsmul_eq_mul,
      mul_one]
    norm_num
  exact ⟨⟨hF, hRD⟩, multipeak_unit_norm_weights idF oneRD id 0 hF hRD⟩

end NeuroKit
